import Mathlib

/-!
Verification development for the bmcweb IBM management-console resource-lock
manager (include/ibm/locks.hpp, namespace crow::ibm_mc_lock).

The C++ class lock is embedded shallowly:

* a lockrequest tuple (session-id, hmc-id, locktype, resourceid, segmentinfo)
  becomes the structure lockrequest, with strings kept as strings (the code
  compares flag and lock-type strings at runtime);
* the std::map locktable becomes an association list kept sorted by key
  (std::map iterates in key order; emplace inserts only when the key is
  absent, which the embedding mirrors);
* the uint32_t transactionID member becomes a Nat reduced mod 2 ^ 32 at each
  pre-increment, mirroring unsigned wraparound;
* reading reflockrecord2's segment vector at an index past its size, and
  reading element 0 of an empty batch, are undefined behaviour in the C++;
  the embedding returns none (Option) on exactly those accesses, so every
  other result of the embedding is a some.

Member functions keep their C++ names.  The nested pair/variant return
encodings of the source are rendered as small inductive result types whose
constructors are in one-to-one correspondence with the variant states
produced by the source (documented on each type).
-/

namespace BmcWebLock

abbrev stype := String

/-- Segment flags: a list of (LockFlag string, SegmentLength) pairs, the
embedding of using segmentflags = std::vector of pair of string and uint32. -/
abbrev segmentflags := List (stype × Nat)

/-- Embedding of using lockrequest = std::tuple of session-id, hmc-id,
locktype, resourceid (uint64) and segmentinfo.  Field order follows the
tuple: element 0 is the session id, element 1 the hmc (console) id. -/
structure lockrequest where
  sessionId : stype
  hmcId : stype
  lockType : stype
  resourceId : Nat
  segments : segmentflags
deriving DecidableEq

/-- Byte j of a resource id viewed little-endian, as the C++
reinterpret_cast of the uint64_t address to a byte pointer reads it on the
target platform. -/
def byteOf (x j : Nat) : Nat := x / 256 ^ j % 256

/-- Embedding of lock::checkbyte: true when byte j of the two resource ids
agree, false when they differ. -/
def checkbyte (resourceid1 resourceid2 j : Nat) : Bool :=
  byteOf resourceid1 j == byteOf resourceid2 j

/-- The inner byte loop of lock::isconflictrecord: compares bytes 0..len-1
of the two full resource ids; false as soon as one compared byte differs. -/
def checkbytes (resourceid1 resourceid2 len : Nat) : Bool :=
  (List.range len).all fun j => checkbyte resourceid1 resourceid2 j

/-- The segment loop of lock::isconflictrecord.  The C++ iterates over the
first record's segment list while indexing the second record's list at the
same position i with no bounds check; exhausting the second list first is
the out-of-bounds access, rendered here as none. -/
def conflictloop (rid1 rid2 : Nat) : segmentflags → segmentflags → Option Bool
  | [], _ => some false
  | _ :: _, [] => none
  | (f1, l1) :: t1, (f2, l2) :: t2 =>
    if f1 = "LockAll" ∨ f2 = "LockAll" then some true
    else if (f1 = "LockSame" ∨ f2 = "LockSame") ∧ l1 = l2 then some true
    else if l1 ≠ l2 then some false
    else if checkbytes rid1 rid2 l1 = false then some false
    else conflictloop rid1 rid2 t1 t2

/-- Embedding of lock::isconflictrecord (pairwise conflict check). -/
def isconflictrecord (r1 r2 : lockrequest) : Option Bool :=
  if r1.lockType = "Read" ∧ r2.lockType = "Read" then some false
  else conflictloop r1.resourceId r2.resourceId r1.segments r2.segments

/-- The per-segment validation loop of lock::isvalidlockrequest, carrying
the running count of LockSame/LockAll segments (the lockflag counter). -/
def validsegments : segmentflags → Nat → Bool
  | [], _ => true
  | (f, l) :: rest, lockflag =>
    if ¬(f = "LockSame" ∨ f = "LockAll" ∨ f = "DontLock") then false
    else if l < 1 ∨ l > 4 then false
    else if f = "LockSame" ∨ f = "LockAll" then
      if lockflag + 1 ≥ 2 then false else validsegments rest (lockflag + 1)
    else validsegments rest lockflag

/-- Embedding of lock::isvalidlockrequest. -/
def isvalidlockrequest (r : lockrequest) : Bool :=
  if ¬(r.lockType = "Read" ∨ r.lockType = "Write") then false
  else if r.segments.length > 6 ∨ r.segments.length < 2 then false
  else validsegments r.segments 0

/-- Inner loop of lock::isconflictrequest: compare a record against every
later record of the batch. -/
def conflictwithlist (r : lockrequest) : List lockrequest → Option Bool
  | [] => some false
  | q :: rest =>
    match isconflictrecord r q with
    | none => none
    | some true => some true
    | some false => conflictwithlist r rest

/-- Outer all-pairs loop of lock::isconflictrequest. -/
def pairwisescan : List lockrequest → Option Bool
  | [] => some false
  | r :: rest =>
    match conflictwithlist r rest with
    | none => none
    | some true => some true
    | some false => pairwisescan rest

/-- Embedding of lock::isconflictrequest (intra-batch self-conflict). -/
def isconflictrequest (reqs : List lockrequest) : Option Bool :=
  if reqs.length = 1 then some false
  else pairwisescan reqs

/-- The lock table: association list from transaction id to the granted
batch, kept in key order like the std::map it embeds. -/
abbrev locktableT := List (Nat × List lockrequest)

/-- Embedding of std::map::emplace on the lock table: insert at the sorted
position when the key is absent, otherwise leave the table unchanged. -/
def emplace (k : Nat) (v : List lockrequest) : locktableT → locktableT
  | [] => [(k, v)]
  | (k', v') :: rest =>
    if k = k' then (k', v') :: rest
    else if k < k' then (k, v) :: (k', v') :: rest
    else (k', v') :: emplace k v rest

/-- The mutable state of the lock object: the uint32_t transactionID counter
(0 after construction) and the lock table (empty after construction). -/
structure lockState where
  transactionID : Nat
  locktable : locktableT
deriving DecidableEq

/-- A freshly constructed lock object: counter 0, empty table. -/
def freshLock : lockState := ⟨0, []⟩

/-- Embedding of lock::generateTransactionID: pre-increment of the uint32_t
counter, with unsigned wraparound made explicit. -/
def generateTransactionID (transactionID : Nat) : Nat :=
  (transactionID + 1) % 2 ^ 32

/-- Innermost loop of lock::isconflictwithtable: one incoming record against
every record of one table entry; some (some q) reports the first conflicting
record q of the entry. -/
def scanbatch (p : lockrequest) : List lockrequest → Option (Option lockrequest)
  | [] => some none
  | q :: rest =>
    match isconflictrecord p q with
    | none => none
    | some true => some (some q)
    | some false => scanbatch p rest

/-- Middle loop of lock::isconflictwithtable: one incoming record against
every table entry, in key order. -/
def scantable (p : lockrequest) : locktableT → Option (Option (Nat × lockrequest))
  | [] => some none
  | (id, batch) :: rest =>
    match scanbatch p batch with
    | none => none
    | some (some q) => some (some (id, q))
    | some none => scantable p rest

/-- Outer loop of lock::isconflictwithtable: every incoming record in batch
order. -/
def scanrequests : List lockrequest → locktableT → Option (Option (Nat × lockrequest))
  | [], _ => some none
  | p :: rest, t =>
    match scantable p t with
    | none => none
    | some (some hit) => some (some hit)
    | some none => scanrequests rest t

/-- Result of lock::isconflictwithtable, the rc pair of the source:
granted t is (false, transactionID part of the variant); conflict id q is
(true, pair of id and conflicting record). -/
inductive rcAcquire where
  | granted (transactionID : Nat)
  | conflict (transactionID : Nat) (record : lockrequest)
deriving DecidableEq

/-- Embedding of lock::isconflictwithtable, which both decides the conflict
and, on success, allocates the id and inserts the batch. -/
def isconflictwithtable (reqs : List lockrequest) (s : lockState) :
    Option (rcAcquire × lockState) :=
  if s.locktable.isEmpty then
    let t := generateTransactionID s.transactionID
    some (.granted t, ⟨t, emplace t reqs s.locktable⟩)
  else
    match scanrequests reqs s.locktable with
    | none => none
    | some (some (id, q)) => some (.conflict id q, s)
    | some none =>
      let t := generateTransactionID s.transactionID
      some (.granted t, ⟨t, emplace t reqs s.locktable⟩)

/-- Result of lock::Acquirelock, the rcacquirelock encoding of the source:
invalidRequest is (true, (false, 0)); selfConflict is (true, (true, 1));
granted t is (false, (false, t)); tableConflict id q is
(false, (true, (id, q))). -/
inductive acquireResult where
  | invalidRequest
  | selfConflict
  | granted (transactionID : Nat)
  | tableConflict (transactionID : Nat) (record : lockrequest)
deriving DecidableEq

/-- Embedding of lock::Acquirelock. -/
def Acquirelock (reqs : List lockrequest) (s : lockState) :
    Option (acquireResult × lockState) :=
  if reqs.all isvalidlockrequest then
    match isconflictrequest reqs with
    | none => none
    | some true => some (.selfConflict, s)
    | some false =>
      match isconflictwithtable reqs s with
      | none => none
      | some (.granted t, s') => some (.granted t, s')
      | some (.conflict id q, s') => some (.tableConflict id q, s')
  else some (.invalidRequest, s)

/-- Embedding of lock::validaterids: every named transaction id must be
present in the lock table. -/
def validaterids (refrids : List Nat) (t : locktableT) : Bool :=
  refrids.all fun id => (List.lookup id t).isSome

/-- Result of lock::isitmylock, the rcrelaselock encoding of the source:
mine is (true, (0, default record)); notmine id q is (false, (id, q)). -/
inductive rcRelease where
  | mine
  | notmine (transactionID : Nat) (record : lockrequest)
deriving DecidableEq

/-- Embedding of lock::isitmylock.  The source reads locktable[id][0]
(the first record of the batch) and compares its hmc id with ids.first and
its session id with ids.second; element 0 of an empty batch is undefined
behaviour, rendered as none.  operator[] on a missing key would default to
an empty batch, hence the getD. -/
def isitmylock (ids : stype × stype) (t : locktableT) : List Nat → Option rcRelease
  | [] => some .mine
  | id :: rest =>
    match ((List.lookup id t).getD []).head? with
    | none => none
    | some r0 =>
      if r0.hmcId = ids.1 ∧ r0.sessionId = ids.2 then isitmylock ids t rest
      else some (.notmine id r0)

/-- Embedding of lock::releaselock: erase every named id from the table. -/
def releaselock (refrids : List Nat) (t : locktableT) : locktableT :=
  refrids.foldl (fun acc id => acc.filter fun e => e.1 != id) t

/-- Result of lock::Releaselock, the rcreleaselockapi encoding of the
source: invalidTransactionId is (false, false); released is
(true, (true, ...)); notOwner id q is (true, (false, (id, q))). -/
inductive releaseResult where
  | invalidTransactionId
  | released
  | notOwner (transactionID : Nat) (record : lockrequest)
deriving DecidableEq

/-- Embedding of lock::Releaselock. -/
def Releaselock (p : List Nat) (ids : stype × stype) (s : lockState) :
    Option (releaseResult × lockState) :=
  if validaterids p s.locktable then
    match isitmylock ids s.locktable p with
    | none => none
    | some .mine => some (.released, ⟨s.transactionID, releaselock p s.locktable⟩)
    | some (.notmine id r0) => some (.notOwner id r0, s)
  else some (.invalidTransactionId, s)

/-- One external operation against the lock object. -/
inductive Oper where
  | acquire (reqs : List lockrequest)
  | release (ids : List Nat) (identity : stype × stype)

/-- Run a sequence of operations from a state, collecting the transaction
ids returned by successful Acquires in order.  A run that reaches an
undefined-behaviour access (a none) stops there. -/
def runOps : List Oper → lockState → lockState × List Nat
  | [], s => (s, [])
  | Oper.acquire reqs :: rest, s =>
    match Acquirelock reqs s with
    | none => (s, [])
    | some (.granted t, s') =>
      let out := runOps rest s'
      (out.1, t :: out.2)
    | some (.invalidRequest, s') => runOps rest s'
    | some (.selfConflict, s') => runOps rest s'
    | some (.tableConflict _ _, s') => runOps rest s'
  | Oper.release ids idp :: rest, s =>
    match Releaselock ids idp s with
    | none => (s, [])
    | some (_, s') => runOps rest s'

/-- A 1-record Write batch with two DontLock segments of length 2 (the
record of the spec scenario). -/
def recW : lockrequest :=
  ⟨"sess", "hmc", "Write", 0, [("DontLock", 2), ("DontLock", 2)]⟩

/-! ## Helper lemmas about the table operations -/

lemma lookup_emplace (k : Nat) (v : List lockrequest) :
    ∀ t : locktableT, (∀ e ∈ t, e.1 ≠ k) →
      List.lookup k (emplace k v t) = some v := by
  intro t
  induction t with
  | nil => intro _; simp [emplace, List.lookup]
  | cons e rest ih =>
    intro h
    obtain ⟨k', v'⟩ := e
    have hk' : k' ≠ k := h (k', v') (by simp)
    simp only [emplace]
    rw [if_neg (Ne.symm hk')]
    by_cases hlt : k < k'
    · rw [if_pos hlt]
      simp [List.lookup]
    · rw [if_neg hlt]
      have hbe : (k == k') = false := by simpa using Ne.symm hk'
      simp only [List.lookup, hbe]
      exact ih fun e he => h e (by simp [he])

lemma lookup_filter_self (k : Nat) :
    ∀ t : locktableT, List.lookup k (t.filter fun e => e.1 != k) = none := by
  intro t
  induction t with
  | nil => simp
  | cons e rest ih =>
    obtain ⟨k', v'⟩ := e
    by_cases hk : k' = k
    · subst hk
      simpa using ih
    · rw [List.filter_cons_of_pos (by simpa using hk)]
      have hbe : (k == k') = false := by simpa using Ne.symm hk
      simp only [List.lookup, hbe]
      exact ih

lemma releaselock_single (id : Nat) (t : locktableT) :
    releaselock [id] t = t.filter fun e => e.1 != id := by
  simp [releaselock]

/-! ## Helper lemmas about the byte comparison -/

lemma checkbytes_eq_true_iff (r1 r2 len : Nat) :
    checkbytes r1 r2 len = true ↔ ∀ j, j < len → byteOf r1 j = byteOf r2 j := by
  simp [checkbytes, checkbyte, List.all_eq_true]

lemma checkbytes_eq_false_of_ne (r1 r2 len j : Nat) (hj : j < len)
    (h : byteOf r1 j ≠ byteOf r2 j) : checkbytes r1 r2 len = false := by
  rcases Bool.eq_false_or_eq_true (checkbytes r1 r2 len) with hb | hb
  · exact absurd ((checkbytes_eq_true_iff r1 r2 len).mp hb j hj) h
  · exact hb

/-! ## Characterisation of Acquirelock and Releaselock outcomes -/

lemma isconflictwithtable_spec (reqs : List lockrequest) (s : lockState)
    (r : rcAcquire) (s' : lockState)
    (h : isconflictwithtable reqs s = some (r, s')) :
    (∃ t, r = .granted t ∧ t = generateTransactionID s.transactionID ∧
      s' = ⟨t, emplace t reqs s.locktable⟩) ∨
    ((∃ id q, r = .conflict id q) ∧ s' = s) := by
  unfold isconflictwithtable at h
  split at h
  · left
    exact ⟨generateTransactionID s.transactionID, by
      injection h with h'
      injection h' with h1 h2
      exact ⟨h1.symm, rfl, h2.symm⟩⟩
  · split at h
    · exact absurd h (by simp)
    · right
      rename_i id q _
      injection h with h'
      injection h' with h1 h2
      exact ⟨⟨id, q, h1.symm⟩, h2.symm⟩
    · left
      exact ⟨generateTransactionID s.transactionID, by
        injection h with h'
        injection h' with h1 h2
        exact ⟨h1.symm, rfl, h2.symm⟩⟩

lemma Acquirelock_spec (reqs : List lockrequest) (s : lockState)
    (r : acquireResult) (s' : lockState)
    (h : Acquirelock reqs s = some (r, s')) :
    (∃ t, r = .granted t ∧ t = generateTransactionID s.transactionID ∧
      s' = ⟨t, emplace t reqs s.locktable⟩) ∨
    ((∀ u, r ≠ .granted u) ∧ s' = s) := by
  unfold Acquirelock at h
  split at h
  · split at h
    · exact absurd h (by simp)
    · right
      injection h with h'
      injection h' with h1 h2
      exact ⟨by intro u; rw [← h1]; simp, h2.symm⟩
    · split at h
      · exact absurd h (by simp)
      · rename_i t s'' heq
        rcases isconflictwithtable_spec reqs s _ _ heq with
          ⟨t', ht', htid, hs⟩ | ⟨⟨id, q, hc⟩, _⟩
        · injection h with h'
          injection h' with h1 h2
          left
          refine ⟨t', by rw [← h1]; injection ht' with h3; rw [h3], htid, ?_⟩
          rw [← h2]; exact hs
        · exact absurd hc (by simp)
      · rename_i id q s'' heq
        rcases isconflictwithtable_spec reqs s _ _ heq with
          ⟨t', ht', _, _⟩ | ⟨_, hs⟩
        · exact absurd ht' (by simp)
        · injection h with h'
          injection h' with h1 h2
          right
          exact ⟨by intro u; rw [← h1]; simp, by rw [← h2]; exact hs⟩
  · right
    injection h with h'
    injection h' with h1 h2
    exact ⟨by intro u; rw [← h1]; simp, h2.symm⟩

lemma Releaselock_spec (p : List Nat) (ids : stype × stype) (s : lockState)
    (r : releaseResult) (s' : lockState)
    (h : Releaselock p ids s = some (r, s')) :
    (r = .released ∧ s' = ⟨s.transactionID, releaselock p s.locktable⟩) ∨
    (r ≠ .released ∧ s' = s) := by
  unfold Releaselock at h
  split at h
  · split at h
    · exact absurd h (by simp)
    · left
      injection h with h'
      injection h' with h1 h2
      exact ⟨h1.symm, h2.symm⟩
    · right
      injection h with h'
      injection h' with h1 h2
      exact ⟨by rw [← h1]; simp, h2.symm⟩
  · right
    injection h with h'
    injection h' with h1 h2
    exact ⟨by rw [← h1]; simp, h2.symm⟩

/-! ## Helper lemmas about the segment comparison loop -/

lemma conflictloop_all_dontlock (rid1 rid2 : Nat) :
    ∀ s1 s2 : segmentflags, s1.length = s2.length →
      (∀ pq ∈ s1.zip s2, pq.1.1 = "DontLock" ∧ pq.2.1 = "DontLock" ∧
        pq.1.2 = pq.2.2 ∧
        ∀ m, m < pq.1.2 → byteOf rid1 m = byteOf rid2 m) →
      conflictloop rid1 rid2 s1 s2 = some false := by
  intro s1
  induction s1 with
  | nil => intro s2 _ _; simp [conflictloop]
  | cons p t1 ih =>
    intro s2 hlen hall
    cases s2 with
    | nil => exact absurd hlen (by simp)
    | cons q t2 =>
      obtain ⟨f1, l1⟩ := p
      obtain ⟨f2, l2⟩ := q
      obtain ⟨hf1, hf2, hl, hbytes⟩ := hall ((f1, l1), (f2, l2)) (by simp)
      simp only at hf1 hf2 hl hbytes
      subst hf1 hf2 hl
      simp only [conflictloop]
      rw [if_neg (by simp), if_neg (by simp), if_neg (by simp),
        if_neg (by simp [(checkbytes_eq_true_iff rid1 rid2 l1).mpr hbytes])]
      exact ih t2 (by simpa using hlen)
        fun pq hpq => hall pq (by simp [hpq])

lemma conflictloop_len_ne (rid1 rid2 : Nat) :
    ∀ (i : Nat) (s1 s2 : segmentflags) (fa fb : stype) (la lb : Nat),
      s1.get? i = some (fa, la) → s2.get? i = some (fb, lb) →
      fa ≠ "LockAll" → fb ≠ "LockAll" → la ≠ lb →
      (∀ pq ∈ (s1.take i).zip (s2.take i),
        pq.1.1 ≠ "LockAll" ∧ pq.2.1 ≠ "LockAll" ∧
        ¬((pq.1.1 = "LockSame" ∨ pq.2.1 = "LockSame") ∧ pq.1.2 = pq.2.2)) →
      conflictloop rid1 rid2 s1 s2 = some false := by
  intro i
  induction i with
  | zero =>
    intro s1 s2 fa fb la lb h1 h2 hfa hfb hne _
    cases s1 with
    | nil => exact absurd h1 (by simp)
    | cons p t1 =>
      cases s2 with
      | nil => exact absurd h2 (by simp)
      | cons q t2 =>
        simp only [List.get?] at h1 h2
        injection h1 with h1; injection h2 with h2
        subst h1 h2
        simp only [conflictloop]
        rw [if_neg (by simp [hfa, hfb]),
          if_neg (by rintro ⟨_, h⟩; exact hne h), if_pos hne]
  | succ i ih =>
    intro s1 s2 fa fb la lb h1 h2 hfa hfb hne hprior
    cases s1 with
    | nil => exact absurd h1 (by simp)
    | cons p t1 =>
      cases s2 with
      | nil => exact absurd h2 (by simp)
      | cons q t2 =>
        obtain ⟨f1, l1⟩ := p
        obtain ⟨f2, l2⟩ := q
        obtain ⟨hp1, hp2, hp3⟩ := hprior ((f1, l1), (f2, l2))
          (by simp [List.take_succ_cons])
        simp only at hp1 hp2 hp3
        simp only [conflictloop]
        rw [if_neg (by simp [hp1, hp2]), if_neg hp3]
        by_cases hll : l1 ≠ l2
        · rw [if_pos hll]
        · rw [if_neg hll]
          by_cases hcb : checkbytes rid1 rid2 l1 = false
          · rw [if_pos hcb]
          · rw [if_neg hcb]
            exact ih t1 t2 fa fb la lb (by simpa using h1) (by simpa using h2)
              hfa hfb hne
              fun pq hpq => hprior pq (by simp [List.take_succ_cons, hpq])

lemma conflictloop_byte_ne (rid1 rid2 : Nat) :
    ∀ (i : Nat) (s1 s2 : segmentflags) (fa fb : stype) (la lb : Nat) (j : Nat),
      s1.get? i = some (fa, la) → s2.get? i = some (fb, lb) →
      fa ≠ "LockAll" → fb ≠ "LockAll" →
      ¬((fa = "LockSame" ∨ fb = "LockSame") ∧ la = lb) →
      la = lb → j < la → byteOf rid1 j ≠ byteOf rid2 j →
      (∀ pq ∈ (s1.take i).zip (s2.take i),
        pq.1.1 ≠ "LockAll" ∧ pq.2.1 ≠ "LockAll" ∧
        ¬((pq.1.1 = "LockSame" ∨ pq.2.1 = "LockSame") ∧ pq.1.2 = pq.2.2) ∧
        pq.1.2 = pq.2.2 ∧
        ∀ m, m < pq.1.2 → byteOf rid1 m = byteOf rid2 m) →
      conflictloop rid1 rid2 s1 s2 = some false := by
  intro i
  induction i with
  | zero =>
    intro s1 s2 fa fb la lb j h1 h2 hfa hfb hsame hlen hj hdiff _
    cases s1 with
    | nil => exact absurd h1 (by simp)
    | cons p t1 =>
      cases s2 with
      | nil => exact absurd h2 (by simp)
      | cons q t2 =>
        simp only [List.get?] at h1 h2
        injection h1 with h1; injection h2 with h2
        subst h1 h2
        simp only [conflictloop]
        rw [if_neg (by simp [hfa, hfb]), if_neg hsame,
          if_neg (by simpa using hlen),
          if_pos (checkbytes_eq_false_of_ne rid1 rid2 la j hj hdiff)]
  | succ i ih =>
    intro s1 s2 fa fb la lb j h1 h2 hfa hfb hsame hlen hj hdiff hprior
    cases s1 with
    | nil => exact absurd h1 (by simp)
    | cons p t1 =>
      cases s2 with
      | nil => exact absurd h2 (by simp)
      | cons q t2 =>
        obtain ⟨f1, l1⟩ := p
        obtain ⟨f2, l2⟩ := q
        obtain ⟨hp1, hp2, hp3, hp4, hp5⟩ := hprior ((f1, l1), (f2, l2))
          (by simp [List.take_succ_cons])
        simp only at hp1 hp2 hp3 hp4 hp5
        simp only [conflictloop]
        rw [if_neg (by simp [hp1, hp2]), if_neg hp3,
          if_neg (by simpa using hp4),
          if_neg (by simp [(checkbytes_eq_true_iff rid1 rid2 l1).mpr hp5])]
        exact ih t1 t2 fa fb la lb j (by simpa using h1) (by simpa using h2)
          hfa hfb hsame hlen hj hdiff
          fun pq hpq => hprior pq (by simp [List.take_succ_cons, hpq])

lemma acquire_nil (s : lockState) :
    Acquirelock [] s = some (.granted (generateTransactionID s.transactionID),
      ⟨generateTransactionID s.transactionID,
        emplace (generateTransactionID s.transactionID) [] s.locktable⟩) := by
  obtain ⟨c, tbl⟩ := s
  cases tbl <;> rfl

/-! ## Characterisation of the per-segment validation loop -/

lemma validsegments_iff :
    ∀ (l : segmentflags) (n : Nat),
      validsegments l n = true ↔
        ((∀ p ∈ l, (p.1 = "LockSame" ∨ p.1 = "LockAll" ∨ p.1 = "DontLock") ∧
            1 ≤ p.2 ∧ p.2 ≤ 4) ∧
         ((l.countP fun p => p.1 == "LockSame" || p.1 == "LockAll") = 0 ∨
           n + (l.countP fun p => p.1 == "LockSame" || p.1 == "LockAll") < 2)) := by
  intro l
  induction l with
  | nil => intro n; simp [validsegments]
  | cons p rest ih =>
    intro n
    obtain ⟨f, len⟩ := p
    by_cases hflag : f = "LockSame" ∨ f = "LockAll" ∨ f = "DontLock"
    · by_cases hlen : len < 1 ∨ len > 4
      · simp only [validsegments]
        rw [if_neg (not_not_intro hflag), if_pos hlen]
        constructor
        · intro h; exact absurd h (by simp)
        · rintro ⟨hall, -⟩
          obtain ⟨-, h1, h2⟩ := hall (f, len) (by simp)
          omega
      · by_cases hcount : f = "LockSame" ∨ f = "LockAll"
        · have hcp : ((f, len).1 == "LockSame" || (f, len).1 == "LockAll") = true := by
            rcases hcount with h | h <;> simp [h]
          rw [List.countP_cons, if_pos hcp]
          simp only [validsegments]
          rw [if_neg (not_not_intro hflag), if_neg hlen, if_pos hcount]
          by_cases hn : n + 1 ≥ 2
          · rw [if_pos hn]
            constructor
            · intro h; exact absurd h (by simp)
            · rintro ⟨-, h | h⟩ <;> omega
          · rw [if_neg hn]
            rw [ih (n + 1)]
            constructor
            · rintro ⟨hall, hc⟩
              refine ⟨?_, ?_⟩
              · intro q hq
                rcases List.mem_cons.mp hq with h | h
                · subst h; exact ⟨hflag, by omega, by omega⟩
                · exact hall q h
              · right; omega
            · rintro ⟨hall, hc⟩
              exact ⟨fun q hq => hall q (by simp [hq]), by omega⟩
        · have hcp : ((f, len).1 == "LockSame" || (f, len).1 == "LockAll") = false := by
            simp only [Bool.or_eq_false_iff, beq_eq_false_iff_ne]
            exact ⟨fun h => hcount (Or.inl h), fun h => hcount (Or.inr h)⟩
          rw [List.countP_cons, if_neg (by simp [hcp])]
          simp only [validsegments]
          rw [if_neg (not_not_intro hflag), if_neg hlen, if_neg hcount]
          rw [ih n]
          constructor
          · rintro ⟨hall, hc⟩
            refine ⟨?_, by simpa using hc⟩
            intro q hq
            rcases List.mem_cons.mp hq with h | h
            · subst h; exact ⟨hflag, by omega, by omega⟩
            · exact hall q h
          · rintro ⟨hall, hc⟩
            exact ⟨fun q hq => hall q (by simp [hq]), by simpa using hc⟩
    · simp only [validsegments]
      rw [if_pos (by simpa using hflag)]
      constructor
      · intro h; exact absurd h (by simp)
      · rintro ⟨hall, -⟩
        obtain ⟨h, -⟩ := hall (f, len) (by simp)
        exact absurd h hflag

/-! ## Bookkeeping for sequences of operations -/

lemma runOps_issued :
    ∀ (ops : List Oper) (s : lockState),
      s.transactionID + (runOps ops s).2.length < 2 ^ 32 →
      (runOps ops s).2 = List.range' (s.transactionID + 1) (runOps ops s).2.length := by
  intro ops
  induction ops with
  | nil => intro s _; simp [runOps]
  | cons op rest ih =>
    intro s h
    cases op with
    | acquire reqs =>
      cases hA : Acquirelock reqs s with
      | none => simp [runOps, hA]
      | some rs =>
        obtain ⟨r, s'⟩ := rs
        rcases Acquirelock_spec reqs s r s' hA with
          ⟨t, hr, ht, hs⟩ | ⟨hng, hs⟩
        · subst hr
          have hrun : runOps (Oper.acquire reqs :: rest) s =
              ((runOps rest s').1, t :: (runOps rest s').2) := by
            simp [runOps, hA]
          rw [hrun] at h ⊢
          simp only [List.length_cons] at h ⊢
          have htid : s'.transactionID = t := by rw [hs]
          have hlt : s.transactionID + 1 < 2 ^ 32 := by omega
          have ht' : t = s.transactionID + 1 := by
            rw [ht, generateTransactionID, Nat.mod_eq_of_lt hlt]
          have hih := ih s' (by rw [htid, ht']; omega)
          rw [htid, ht'] at hih
          rw [List.range'_succ]
          rw [ht']
          exact congrArg (List.cons (s.transactionID + 1)) hih
        · have hrun : runOps (Oper.acquire reqs :: rest) s = runOps rest s' := by
            rcases r with _ | _ | u | ⟨id, q⟩
            · simp [runOps, hA]
            · simp [runOps, hA]
            · exact absurd rfl (hng u)
            · simp [runOps, hA]
          rw [hrun] at h ⊢
          rw [hs] at h ⊢
          exact ih s h
    | release ids idp =>
      cases hR : Releaselock ids idp s with
      | none => simp [runOps, hR]
      | some rs =>
        obtain ⟨r, s'⟩ := rs
        have hrun : runOps (Oper.release ids idp :: rest) s = runOps rest s' := by
          simp [runOps, hR]
        have htid : s'.transactionID = s.transactionID := by
          rcases Releaselock_spec ids idp s r s' hR with ⟨-, hs⟩ | ⟨-, hs⟩ <;>
            rw [hs]
        rw [hrun] at h ⊢
        rw [← htid] at h ⊢
        exact ih s' h

lemma runOps_replicate :
    ∀ (n : Nat) (s : lockState),
      (runOps (List.replicate n (Oper.acquire [])) s).2 =
        (List.range n).map fun k => (s.transactionID + 1 + k) % 2 ^ 32 := by
  intro n
  induction n with
  | zero => intro s; simp [runOps]
  | succ n ih =>
    intro s
    rw [List.replicate_succ]
    have hA := acquire_nil s
    have hrun : runOps (Oper.acquire [] :: List.replicate n (Oper.acquire [])) s =
        ((runOps (List.replicate n (Oper.acquire []))
            ⟨generateTransactionID s.transactionID,
              emplace (generateTransactionID s.transactionID) [] s.locktable⟩).1,
          generateTransactionID s.transactionID ::
            (runOps (List.replicate n (Oper.acquire []))
              ⟨generateTransactionID s.transactionID,
                emplace (generateTransactionID s.transactionID) [] s.locktable⟩).2) := by
      simp [runOps, hA]
    rw [hrun, ih]
    rw [List.range_succ_eq_map, List.map_cons, List.map_map]
    refine congrArg₂ List.cons ?_ ?_
    · simp [generateTransactionID]
    · refine List.map_congr_left fun k _ => ?_
      simp only [Function.comp_apply, generateTransactionID]
      have h32 : (2 : Nat) ^ 32 = 4294967296 := by norm_num
      rw [h32]
      omega


/-! ## Concrete records used by the scenario claims -/

/-- A Write request whose first segment is LockAll and whose second segment
is DontLock of length 2. -/
def recAllA : lockrequest :=
  ⟨"sess", "hmc", "Write", 0, [("LockAll", 1), ("DontLock", 2)]⟩

/-- Like recAllA but with second-segment length 3, so position 1 has
different lengths on the two sides. -/
def recAllB : lockrequest :=
  ⟨"sess", "hmc", "Write", 0, [("LockAll", 1), ("DontLock", 3)]⟩

/-- A validator-legal Write request with three DontLock segments. -/
def recLong : lockrequest :=
  ⟨"sess", "hmc", "Write", 0,
    [("DontLock", 1), ("DontLock", 1), ("DontLock", 1)]⟩

/-- A validator-legal Write request with two DontLock segments. -/
def recShort : lockrequest :=
  ⟨"sess", "hmc", "Write", 0, [("DontLock", 1), ("DontLock", 1)]⟩

/-- A request meeting every condition named by claim C7 (Read lock type,
two segments, lengths 1, no LockSame/LockAll) whose segment flag string is
not one of the three legal flags. -/
def recBadFlag : lockrequest :=
  ⟨"sess", "hmc", "Read", 0, [("Bogus", 1), ("Bogus", 1)]⟩

/-! ## The claims -/

/-- Claim C2, counterexample: from the empty table the 1-record Write batch
with two DontLock length-2 segments is Granted(1), but the identical batch
acquired immediately afterwards is NOT rejected with
TableConflict(1, first record) as the claim states - the result of the
second Acquire is a grant, not a table conflict. -/
theorem c2_identical_batch_counterexample :
    Acquirelock [recW] freshLock = some (.granted 1, ⟨1, [(1, [recW])]⟩) ∧
    (Acquirelock [recW] ⟨1, [(1, [recW])]⟩).map Prod.fst ≠
      some (.tableConflict 1 recW) := by decide

/-- Claim C2, amended: from the empty table the 1-record Write batch with
two DontLock length-2 segments is Granted(1); immediately acquiring an
identical batch is Granted(2), because with neither segment LockAll or
LockSame, equal lengths and equal compared bytes at every position, no
position produces a decisive outcome and the pair is declared
non-conflicting (the identical record does not even conflict with itself). -/
theorem c2_identical_batch_granted_again :
    Acquirelock [recW] freshLock = some (.granted 1, ⟨1, [(1, [recW])]⟩) ∧
    Acquirelock [recW] ⟨1, [(1, [recW])]⟩ =
      some (.granted 2, ⟨2, [(1, [recW]), (2, [recW])]⟩) ∧
    isconflictrecord recW recW = some false := by decide

/-- Claim C4, counterexample: recAllA and recAllB are validator-legal, their
aligned segments at position 1 have different length values (2 and 3), yet
the pair conflicts, because the LockAll at position 0 is decisive before the
length comparison at position 1 is ever reached; so differing lengths at
some aligned position do not make the pair conflict-free regardless of
flags at other positions. -/
theorem c4_length_mismatch_counterexample :
    isvalidlockrequest recAllA = true ∧
    isvalidlockrequest recAllB = true ∧
    recAllA.segments.get? 1 = some ("DontLock", 2) ∧
    recAllB.segments.get? 1 = some ("DontLock", 3) ∧
    isconflictrecord recAllA recAllB = some true := by decide

/-- Claim C6: the pairwise conflict check indexes the second request's
segment list at the position of the first request's iteration with no
bounds check; for the validator-legal pair recLong (3 segments) and
recShort (2 segments), every shared position is DontLock with equal lengths
and equal compared bytes, so no decisive outcome occurs within the second
request's segment count and the access at position 2 is out of range: the
total embedding reaches its out-of-bounds branch (none), so the pairwise
check is not well-defined for every pair of valid requests. -/
theorem c6_out_of_bounds_reachable :
    isvalidlockrequest recLong = true ∧
    isvalidlockrequest recShort = true ∧
    recShort.segments.length < recLong.segments.length ∧
    isconflictrecord recLong recShort = none := by decide

/-- Claim C7, counterexample: recBadFlag satisfies every condition of the
claim's right-hand side (lock type Read, segment count 2, every segment
length 1, zero LockSame/LockAll segments), yet validation rejects it,
because the validator also requires every segment flag string to be one of
LockSame, LockAll, DontLock - a condition the claim's iff omits. -/
theorem c7_validate_counterexample :
    (recBadFlag.lockType = "Read" ∨ recBadFlag.lockType = "Write") ∧
    2 ≤ recBadFlag.segments.length ∧ recBadFlag.segments.length ≤ 6 ∧
    (∀ p ∈ recBadFlag.segments, 1 ≤ p.2 ∧ p.2 ≤ 4) ∧
    (recBadFlag.segments.countP fun p =>
      p.1 == "LockSame" || p.1 == "LockAll") < 2 ∧
    isvalidlockrequest recBadFlag = false := by decide

/-- Claim C3: for two lock requests that are not both Read and have equal
segment counts, if at every aligned position both flags are DontLock, the
two lengths are equal and bytes 0..length-1 of the two resource ids agree,
then the pairwise check returns no-conflict (some false): no position
produces a decisive outcome; in particular a Write request with all-DontLock
segments does not conflict with an identical copy of itself. -/
theorem c3_all_dontlock_no_conflict (a b : lockrequest)
    (hread : ¬(a.lockType = "Read" ∧ b.lockType = "Read"))
    (hlen : a.segments.length = b.segments.length)
    (hall : ∀ pq ∈ a.segments.zip b.segments,
      pq.1.1 = "DontLock" ∧ pq.2.1 = "DontLock" ∧ pq.1.2 = pq.2.2 ∧
      ∀ m, m < pq.1.2 → byteOf a.resourceId m = byteOf b.resourceId m) :
    isconflictrecord a b = some false := by
  unfold isconflictrecord
  rw [if_neg hread]
  exact conflictloop_all_dontlock a.resourceId b.resourceId
    a.segments b.segments hlen hall

/-- Witness for C3 at the concrete record recW compared with itself. -/
theorem c3_all_dontlock_no_conflict_witness :
    isconflictrecord recW recW = some false :=
  c3_all_dontlock_no_conflict recW recW (by decide) (by decide) (by decide)

/-- Claim C4, amended: if the aligned segments at some position have
different length values, the pair does not conflict PROVIDED that position
is reached undecided: neither of the two segments at that position carries
LockAll, and at every earlier aligned position neither side carries LockAll
and no side carries LockSame with equal lengths.  (The counterexample shows
the unconditional claim fails when an earlier or same-position LockAll is
decisive first.) -/
theorem c4_length_mismatch_no_conflict (a b : lockrequest) (i : Nat)
    (fa fb : stype) (la lb : Nat)
    (hga : a.segments.get? i = some (fa, la))
    (hgb : b.segments.get? i = some (fb, lb))
    (hfa : fa ≠ "LockAll") (hfb : fb ≠ "LockAll")
    (hne : la ≠ lb)
    (hprior : ∀ pq ∈ (a.segments.take i).zip (b.segments.take i),
      pq.1.1 ≠ "LockAll" ∧ pq.2.1 ≠ "LockAll" ∧
      ¬((pq.1.1 = "LockSame" ∨ pq.2.1 = "LockSame") ∧ pq.1.2 = pq.2.2)) :
    isconflictrecord a b = some false := by
  unfold isconflictrecord
  by_cases hread : a.lockType = "Read" ∧ b.lockType = "Read"
  · rw [if_pos hread]
  · rw [if_neg hread]
    exact conflictloop_len_ne a.resourceId b.resourceId i
      a.segments b.segments fa fb la lb hga hgb hfa hfb hne hprior

/-- Witness for C4 at concrete requests differing in length at position 1
after a non-decisive equal position 0. -/
theorem c4_length_mismatch_no_conflict_witness :
    isconflictrecord
      ⟨"sess", "hmc", "Write", 0, [("DontLock", 1), ("DontLock", 2)]⟩
      ⟨"sess", "hmc", "Write", 0, [("DontLock", 1), ("DontLock", 3)]⟩ =
      some false :=
  c4_length_mismatch_no_conflict
    ⟨"sess", "hmc", "Write", 0, [("DontLock", 1), ("DontLock", 2)]⟩
    ⟨"sess", "hmc", "Write", 0, [("DontLock", 1), ("DontLock", 3)]⟩
    1 "DontLock" "DontLock" 2 3 (by decide) (by decide) (by decide)
    (by decide) (by decide) (by decide)

/-- Claim C5: at a segment position reached with the byte-comparison step
(no LockAll on either side there or earlier, no LockSame with equal lengths
there or earlier, lengths equal there, all earlier positions byte-equal),
the check compares bytes at offsets 0 through length-1 of the two full
resource ids - the offset j below restarts at 0 for this position instead
of advancing by the cumulative length of prior segments - and the whole
pair is declared non-conflicting as soon as one compared byte differs. -/
theorem c5_byte_mismatch_no_conflict (a b : lockrequest) (i j : Nat)
    (fa fb : stype) (la lb : Nat)
    (hga : a.segments.get? i = some (fa, la))
    (hgb : b.segments.get? i = some (fb, lb))
    (hfa : fa ≠ "LockAll") (hfb : fb ≠ "LockAll")
    (hsame : ¬((fa = "LockSame" ∨ fb = "LockSame") ∧ la = lb))
    (hlen : la = lb)
    (hj : j < la)
    (hdiff : byteOf a.resourceId j ≠ byteOf b.resourceId j)
    (hprior : ∀ pq ∈ (a.segments.take i).zip (b.segments.take i),
      pq.1.1 ≠ "LockAll" ∧ pq.2.1 ≠ "LockAll" ∧
      ¬((pq.1.1 = "LockSame" ∨ pq.2.1 = "LockSame") ∧ pq.1.2 = pq.2.2) ∧
      pq.1.2 = pq.2.2 ∧
      ∀ m, m < pq.1.2 → byteOf a.resourceId m = byteOf b.resourceId m) :
    isconflictrecord a b = some false := by
  unfold isconflictrecord
  by_cases hread : a.lockType = "Read" ∧ b.lockType = "Read"
  · rw [if_pos hread]
  · rw [if_neg hread]
    exact conflictloop_byte_ne a.resourceId b.resourceId i
      a.segments b.segments fa fb la lb j hga hgb hfa hfb hsame hlen hj
      hdiff hprior

/-- Witness for C5: position 1 is reached after a byte-equal position 0 of
length 2, and byte 2 (an offset below position 1's length 3, counted from
offset 0 of the full resource id) differs, so the pair does not conflict. -/
theorem c5_byte_mismatch_no_conflict_witness :
    isconflictrecord
      ⟨"sess", "hmc", "Write", 196608, [("DontLock", 2), ("DontLock", 3)]⟩
      ⟨"sess", "hmc", "Write", 0, [("DontLock", 2), ("DontLock", 3)]⟩ =
      some false :=
  c5_byte_mismatch_no_conflict
    ⟨"sess", "hmc", "Write", 196608, [("DontLock", 2), ("DontLock", 3)]⟩
    ⟨"sess", "hmc", "Write", 0, [("DontLock", 2), ("DontLock", 3)]⟩
    1 2 "DontLock" "DontLock" 3 3 (by decide) (by decide) (by decide)
    (by decide) (by decide) (by decide) (by decide) (by decide) (by decide)

/-- Claim C7, amended: validation succeeds exactly when the lock type is
Read or Write, the segment count is between 2 and 6, every segment flag
string is one of LockSame, LockAll, DontLock (the condition the original
claim omitted), every segment length is between 1 and 4, and fewer than two
segments carry LockSame or LockAll.  The boundary facts the claim lists
(counts 1 and 7 rejected, 2 and 6 accepted; lengths 0 and 5 rejected, 1 and
4 accepted; two flagged segments rejected, one accepted) all follow. -/
theorem c7_validate_iff (r : lockrequest) :
    isvalidlockrequest r = true ↔
      ((r.lockType = "Read" ∨ r.lockType = "Write") ∧
       (2 ≤ r.segments.length ∧ r.segments.length ≤ 6) ∧
       (∀ p ∈ r.segments,
         (p.1 = "LockSame" ∨ p.1 = "LockAll" ∨ p.1 = "DontLock") ∧
         1 ≤ p.2 ∧ p.2 ≤ 4) ∧
       (r.segments.countP fun p =>
         p.1 == "LockSame" || p.1 == "LockAll") < 2) := by
  unfold isvalidlockrequest
  by_cases htype : r.lockType = "Read" ∨ r.lockType = "Write"
  · rw [if_neg (not_not_intro htype)]
    by_cases hcnt : r.segments.length > 6 ∨ r.segments.length < 2
    · rw [if_pos hcnt]
      constructor
      · intro h; exact absurd h (by simp)
      · rintro ⟨-, ⟨h1, h2⟩, -, -⟩; omega
    · rw [if_neg hcnt]
      rw [validsegments_iff r.segments 0]
      constructor
      · rintro ⟨hall, hc⟩
        exact ⟨htype, by omega, hall, by omega⟩
      · rintro ⟨-, -, hall, hc⟩
        exact ⟨hall, by omega⟩
  · rw [if_pos htype]
    constructor
    · intro h; exact absurd h (by simp)
    · rintro ⟨h, -⟩; exact absurd h htype

/-- Witness for C7 applying the iff in both directions at concrete
requests: recW satisfies the amended conditions and validates; recBadFlag
fails validation. -/
theorem c7_validate_iff_witness :
    isvalidlockrequest recW = true ∧ ¬ isvalidlockrequest recBadFlag = true :=
  ⟨(c7_validate_iff recW).mpr (by decide),
   fun h => by
    obtain ⟨-, -, hall, -⟩ := (c7_validate_iff recBadFlag).mp h
    exact absurd (hall ("Bogus", 1) (by decide)).1 (by decide)⟩

/-- Claim C8: Acquire and Release are all-or-nothing.  Whenever Acquire
returns a rejection (invalid request, self conflict, or table conflict, i.e.
anything but a grant) or Release returns a rejection (invalid transaction id
or not-owner, i.e. anything but Released), the state - lock table and
transaction-id counter - after the call equals the state before it. -/
theorem c8_rejections_preserve_state :
    (∀ (reqs : List lockrequest) (s : lockState) (r : acquireResult)
        (s' : lockState), Acquirelock reqs s = some (r, s') →
        (∀ u, r ≠ .granted u) → s' = s) ∧
    (∀ (p : List Nat) (ids : stype × stype) (s : lockState)
        (r : releaseResult) (s' : lockState),
        Releaselock p ids s = some (r, s') → r ≠ .released → s' = s) := by
  constructor
  · intro reqs s r s' h hng
    rcases Acquirelock_spec reqs s r s' h with ⟨t, hr, -, -⟩ | ⟨-, hs⟩
    · exact absurd hr (hng t)
    · exact hs
  · intro p ids s r s' h hnr
    rcases Releaselock_spec p ids s r s' h with ⟨hr, -⟩ | ⟨-, hs⟩
    · exact absurd hr hnr
    · exact hs

/-- Witness for C8: a rejected Acquire (invalid lock type) and a rejected
Release (transaction id absent from a table holding only id 1) both leave
the concrete state unchanged. -/
theorem c8_rejections_preserve_state_witness :
    (⟨1, [(1, [recW])]⟩ : lockState) = ⟨1, [(1, [recW])]⟩ ∧
    (⟨1, [(1, [recW])]⟩ : lockState) = ⟨1, [(1, [recW])]⟩ :=
  ⟨c8_rejections_preserve_state.1
      [⟨"sess", "hmc", "Bogus", 0, [("DontLock", 2), ("DontLock", 2)]⟩]
      ⟨1, [(1, [recW])]⟩ .invalidRequest ⟨1, [(1, [recW])]⟩
      (by decide) (fun u h => nomatch h),
   c8_rejections_preserve_state.2 [7] ("hmc", "sess")
      ⟨1, [(1, [recW])]⟩ .invalidTransactionId ⟨1, [(1, [recW])]⟩
      (by decide) (by decide)⟩

/-- Claim C10: Acquire of an empty batch (zero lock records) is never
rejected: validation and the self-conflict check pass vacuously and the
table scan finds no conflict, so from any state whose table keys do not
exceed the counter (every reachable state) and whose counter does not wrap,
the call returns Granted with the freshly allocated id counter+1 and
inserts an empty entry under that id. -/
theorem c10_empty_batch_granted (s : lockState)
    (hk : ∀ e ∈ s.locktable, e.1 ≤ s.transactionID)
    (hw : s.transactionID + 1 < 2 ^ 32) :
    Acquirelock [] s = some (.granted (s.transactionID + 1),
      ⟨s.transactionID + 1, emplace (s.transactionID + 1) [] s.locktable⟩) ∧
    List.lookup (s.transactionID + 1)
      (emplace (s.transactionID + 1) [] s.locktable) = some [] := by
  have hgen : generateTransactionID s.transactionID = s.transactionID + 1 := by
    rw [generateTransactionID, Nat.mod_eq_of_lt hw]
  constructor
  · have := acquire_nil s
    rw [hgen] at this
    exact this
  · exact lookup_emplace (s.transactionID + 1) [] s.locktable
      fun e he => by have := hk e he; omega

/-- Witness for C10 at a state with counter 5 and one held batch. -/
theorem c10_empty_batch_granted_witness :
    Acquirelock [] ⟨5, [(3, [recW])]⟩ = some (.granted 6,
      ⟨6, emplace 6 [] [(3, [recW])]⟩) ∧
    List.lookup 6 (emplace 6 [] [(3, [recW])]) = some [] :=
  c10_empty_batch_granted ⟨5, [(3, [recW])]⟩ (by decide) (by decide)

/-- Claim C1: for every batch granted under transaction id t, a Release
naming [t] and presenting the identity recorded on the first record of the
batch (the ownership check compares the caller's pair against the hmc id
and session id of that first record only) returns Released and removes t
from the lock table, and a subsequent Release of [t] returns the
invalid-transaction-id rejection.  The hypotheses say the starting state is
plausible: no table key exceeds the counter and the counter does not wrap
on this grant. -/
theorem c1_release_with_matching_identity (s : lockState)
    (r0 : lockrequest) (B : List lockrequest) (t : Nat) (s' : lockState)
    (hk : ∀ e ∈ s.locktable, e.1 ≤ s.transactionID)
    (hw : s.transactionID + 1 < 2 ^ 32)
    (hacq : Acquirelock (r0 :: B) s = some (.granted t, s')) :
    ∃ s2 : lockState,
      Releaselock [t] (r0.hmcId, r0.sessionId) s' = some (.released, s2) ∧
      List.lookup t s2.locktable = none ∧
      Releaselock [t] (r0.hmcId, r0.sessionId) s2 =
        some (.invalidTransactionId, s2) := by
  have hts : t = generateTransactionID s.transactionID ∧
      s' = ⟨t, emplace t (r0 :: B) s.locktable⟩ := by
    rcases Acquirelock_spec (r0 :: B) s _ s' hacq with
      ⟨u, hu, htid, hsu⟩ | ⟨hng, -⟩
    · injection hu with h
      subst h
      exact ⟨htid, hsu⟩
    · exact absurd rfl (hng t)
  obtain ⟨htid, hs⟩ := hts
  have ht : t = s.transactionID + 1 := by
    rw [htid, generateTransactionID, Nat.mod_eq_of_lt hw]
  have hkeys : ∀ e ∈ s.locktable, e.1 ≠ t := by
    intro e he
    have := hk e he
    omega
  have hlk : List.lookup t s'.locktable = some (r0 :: B) := by
    rw [hs]
    exact lookup_emplace t (r0 :: B) s.locktable hkeys
  have hv : validaterids [t] s'.locktable = true := by
    simp [validaterids, hlk]
  have him : isitmylock (r0.hmcId, r0.sessionId) s'.locktable [t] =
      some .mine := by
    simp [isitmylock, hlk]
  refine ⟨⟨s'.transactionID, releaselock [t] s'.locktable⟩, ?_, ?_, ?_⟩
  · simp [Releaselock, hv, him]
  · rw [releaselock_single]
    exact lookup_filter_self t s'.locktable
  · have hnone : List.lookup t (releaselock [t] s'.locktable) = none := by
      rw [releaselock_single]
      exact lookup_filter_self t s'.locktable
    have hv2 : validaterids [t] (releaselock [t] s'.locktable) = false := by
      simp [validaterids, hnone]
    simp [Releaselock, hv2]

/-- Witness for C1: the batch [recW] granted as transaction 1 from the
fresh lock is releasable with the matching identity, after which 1 is gone
and a second release is rejected. -/
theorem c1_release_with_matching_identity_witness :
    ∃ s2 : lockState,
      Releaselock [1] (recW.hmcId, recW.sessionId) ⟨1, [(1, [recW])]⟩ =
        some (.released, s2) ∧
      List.lookup 1 s2.locktable = none ∧
      Releaselock [1] (recW.hmcId, recW.sessionId) s2 =
        some (.invalidTransactionId, s2) :=
  c1_release_with_matching_identity freshLock recW [] 1 ⟨1, [(1, [recW])]⟩
    (by decide) (by decide) (by decide)

/-- Claim C9, counterexample: across a sequence of 2 to the 32 plus 1
successful empty-batch Acquires from a fresh lock object, the uint32_t
counter wraps: transaction id 1 is issued both first and last (so an id is
issued twice) and the issued sequence is not strictly increasing. -/
theorem c9_wraparound_counterexample :
    (runOps (List.replicate (2 ^ 32 + 1) (Oper.acquire []))
        freshLock).2.get? 0 = some 1 ∧
    (runOps (List.replicate (2 ^ 32 + 1) (Oper.acquire []))
        freshLock).2.get? (2 ^ 32) = some 1 ∧
    ¬ List.Pairwise (· < ·)
      (runOps (List.replicate (2 ^ 32 + 1) (Oper.acquire [])) freshLock).2 := by
  have hrep := runOps_replicate (2 ^ 32 + 1) freshLock
  have hf0 : freshLock.transactionID = 0 := rfl
  rw [hf0] at hrep
  have hg0 : (runOps (List.replicate (2 ^ 32 + 1) (Oper.acquire []))
      freshLock).2.get? 0 = some 1 := by
    rw [hrep, List.get?_map, List.get?_range (by norm_num)]
    norm_num
  have hgN : (runOps (List.replicate (2 ^ 32 + 1) (Oper.acquire []))
      freshLock).2.get? (2 ^ 32) = some 1 := by
    rw [hrep, List.get?_map, List.get?_range (by norm_num)]
    have : (0 + 1 + 2 ^ 32) % 2 ^ 32 = 1 := by
      rw [Nat.zero_add, Nat.add_mod_right]
      norm_num
    simp [this]
  refine ⟨hg0, hgN, ?_⟩
  intro hp
  have hnd : (runOps (List.replicate (2 ^ 32 + 1) (Oper.acquire []))
      freshLock).2.Nodup := hp.imp fun h => Nat.ne_of_lt h
  have hlen : (0 : Nat) < (runOps (List.replicate (2 ^ 32 + 1)
      (Oper.acquire [])) freshLock).2.length := by
    rw [hrep, List.length_map, List.length_range]
    norm_num
  have := List.get?_inj hlen hnd (hg0.trans hgN.symm)
  norm_num at this

/-- Claim C9, amended: the transaction ids returned by successful Acquires
across any interleaved sequence of Acquire and Release operations from a
fresh lock object are exactly 1, 2, 3, ... in order - strictly increasing,
beginning at 1, no id issued twice - PROVIDED fewer than 2 to the 32 ids
are issued; the uint32_t counter has no wraparound handling and reissues
old ids beyond that bound (see the counterexample). -/
theorem c9_issued_ids_strictly_increasing (ops : List Oper)
    (h : (runOps ops freshLock).2.length < 2 ^ 32) :
    (runOps ops freshLock).2 =
      List.range' 1 (runOps ops freshLock).2.length ∧
    List.Pairwise (· < ·) (runOps ops freshLock).2 := by
  have h0 : freshLock.transactionID + (runOps ops freshLock).2.length <
      2 ^ 32 := by
    have hf0 : freshLock.transactionID = 0 := rfl
    omega
  have hr := runOps_issued ops freshLock h0
  have hf0 : freshLock.transactionID = 0 := rfl
  rw [hf0] at hr
  have hr1 : (runOps ops freshLock).2 =
      List.range' 1 (runOps ops freshLock).2.length := by
    simpa using hr
  refine ⟨hr1, ?_⟩
  rw [hr1]
  exact List.pairwise_lt_range' 1 _

/-- Witness for C9 at a concrete two-acquire sequence issuing ids 1, 2. -/
theorem c9_issued_ids_strictly_increasing_witness :
    (runOps [Oper.acquire [recW], Oper.acquire [recW]] freshLock).2 =
      List.range' 1
        (runOps [Oper.acquire [recW], Oper.acquire [recW]] freshLock).2.length ∧
    List.Pairwise (· < ·)
      (runOps [Oper.acquire [recW], Oper.acquire [recW]] freshLock).2 :=
  c9_issued_ids_strictly_increasing
    [Oper.acquire [recW], Oper.acquire [recW]] (by decide)

end BmcWebLock
